import Mathlib

/-!
Verification of the bioio-tifffile reader core algorithms against a shallow
embedding of `src/bioio_tifffile/reader.py`.

Python strings are embedded as `List Char`; the entries of the reader's
`chunk_dims` list (Python one-character strings, in general strings) are
embedded as `List Char` as well.  Fallible code (Python exceptions) is
embedded with `Except String`.  Rational numbers stand for the exact values
of the Python arithmetic on tag fractions.
-/

namespace BioioTifffile

/-- The placeholder axis characters used by tifffile: reader.py line 24,
`UNKNOWN_DIM_CHARS = ["Q", "I"]`. -/
def UNKNOWN_DIM_CHARS : List Char := ['Q', 'I']

/-- One iteration of the loop body of `Reader._merge_dim_guesses`
(reader.py lines 234-255): a recognized dim from metadata is appended to the
best guess; for a placeholder, the first guessed dim not already in the best
guess and not anywhere in the metadata string is appended; if none exists the
placeholder itself is appended. -/
def mergeStep (dimsFromMeta guessedDims bestGuess : List Char)
    (dimFromMeta : Char) : List Char :=
  if !(UNKNOWN_DIM_CHARS.contains dimFromMeta) then
    bestGuess ++ [dimFromMeta]
  else
    match guessedDims.find?
        (fun g => !(bestGuess.contains g) && !(dimsFromMeta.contains g)) with
    | some g => bestGuess ++ [g]
    | none => bestGuess ++ [dimFromMeta]

/-- Embedding of `Reader._merge_dim_guesses` (reader.py lines 230-257): a left
fold of `mergeStep` over the metadata axis string starting from the empty best
guess. -/
def mergeDimGuesses (dimsFromMeta guessedDims : List Char) : List Char :=
  dimsFromMeta.foldl (mergeStep dimsFromMeta guessedDims) []

/-- Embedding of `Reader._guess_tiff_dim_order` (reader.py lines 259-271).
The parameter `guessedDims` stands for the canonical shape-only guess
`Reader._guess_dim_order(scene.shape)`, a primitive of the external bioio-base
package (out of scope per the design).  If every metadata axis character is
known, the metadata string is returned unchanged, else the merge runs. -/
def guessTiffDimOrder (dimsFromMeta guessedDims : List Char) : List Char :=
  if dimsFromMeta.all (fun c => !(UNKNOWN_DIM_CHARS.contains c)) then
    dimsFromMeta
  else
    mergeDimGuesses dimsFromMeta guessedDims

/-- Claim C3: for every axis-hint string containing no placeholder characters
('Q' or 'I'), dimension inference returns the hint unchanged, one label per
input position; consequently inference is idempotent on any placeholder-free
output: running it again on its own placeholder-free result returns that
result unchanged. -/
theorem guessTiffDimOrder_placeholder_free_identity
    (dimsFromMeta guessedDims : List Char)
    (h : dimsFromMeta.all (fun c => !(UNKNOWN_DIM_CHARS.contains c)) = true) :
    guessTiffDimOrder dimsFromMeta guessedDims = dimsFromMeta ∧
    guessTiffDimOrder (guessTiffDimOrder dimsFromMeta guessedDims) guessedDims
      = guessTiffDimOrder dimsFromMeta guessedDims := by
  have h1 : guessTiffDimOrder dimsFromMeta guessedDims = dimsFromMeta := by
    unfold guessTiffDimOrder
    rw [if_pos h]
  refine ⟨h1, ?_⟩
  rw [h1, h1]

/-- Concrete instantiation of claim C3 at the hint "TZYX" with shape-only
guess "CZYX". -/
theorem guessTiffDimOrder_placeholder_free_identity_witness :
    (['T', 'Z', 'Y', 'X'].all (fun c => !(UNKNOWN_DIM_CHARS.contains c))
        = true) ∧
    (guessTiffDimOrder ['T', 'Z', 'Y', 'X'] ['C', 'Z', 'Y', 'X']
        = ['T', 'Z', 'Y', 'X'] ∧
      guessTiffDimOrder
          (guessTiffDimOrder ['T', 'Z', 'Y', 'X'] ['C', 'Z', 'Y', 'X'])
          ['C', 'Z', 'Y', 'X']
        = guessTiffDimOrder ['T', 'Z', 'Y', 'X'] ['C', 'Z', 'Y', 'X']) :=
  ⟨by decide,
    guessTiffDimOrder_placeholder_free_identity _ _ (by decide)⟩

/-- Auxiliary: `find?` yields equal results for pointwise-equal predicates. -/
theorem find_eq_of_pointwise {p q : Char → Bool} :
    ∀ {l : List Char}, (∀ x ∈ l, p x = q x) → l.find? p = l.find? q := by
  intro l
  induction l with
  | nil => intro _; rfl
  | cons a t ih =>
    intro h
    have ha := h a (by simp)
    cases hq : q a with
    | true =>
      rw [List.find?_cons_of_pos t (by rw [ha, hq]),
        List.find?_cons_of_pos t hq]
    | false =>
      rw [List.find?_cons_of_neg, List.find?_cons_of_neg]
      · exact ih fun x hx => h x (by simp [hx])
      · simp [hq]
      · simp [ha, hq]

/-- Auxiliary: on a duplicate-free list, scanning for the first element not
contained in its own `k`-prefix (under an everywhere-true side condition)
finds element `k`. -/
theorem find_not_in_take :
    ∀ (g : List Char), g.Nodup → ∀ (k : Nat) (hk : k < g.length)
      (P : Char → Bool), (∀ x ∈ g, P x = true) →
      g.find? (fun x => !((g.take k).contains x) && P x)
        = some (g.get ⟨k, hk⟩) := by
  intro g
  induction g with
  | nil =>
    intro _ k hk
    simp at hk
  | cons a t ih =>
    intro hnd k hk P hP
    have hamem : a ∉ t := (List.nodup_cons.1 hnd).1
    have hnd' : t.Nodup := (List.nodup_cons.1 hnd).2
    cases k with
    | zero =>
      rw [List.find?_cons_of_pos _ (by simp [hP a (by simp)])]
      rfl
    | succ j =>
      have hj : j < t.length := by simpa using hk
      rw [show (a :: t).take (j + 1) = a :: t.take j from rfl]
      rw [List.find?_cons_of_neg]
      · have hcong : ∀ x ∈ t,
            (!((a :: t.take j).contains x) && P x)
              = (!((t.take j).contains x) && P x) := by
          intro x hx
          have hxa : x ≠ a := fun he => hamem (he ▸ hx)
          simp [List.contains_cons, hxa]
        rw [find_eq_of_pointwise hcong]
        rw [ih hnd' j hj P fun x hx => hP x (by simp [hx])]
        rfl
      · simp

/-- Auxiliary invariant of the `_merge_dim_guesses` loop on an all-placeholder
metadata string: starting from the best guess `g.take k`, folding the
remaining placeholders extends the best guess one canonical label at a time,
ending at `g` itself. -/
theorem merge_fold_take (meta g : List Char)
    (hmeta : ∀ c ∈ meta, UNKNOWN_DIM_CHARS.contains c = true)
    (hnd : g.Nodup)
    (hfree : ∀ c ∈ g, UNKNOWN_DIM_CHARS.contains c = false) :
    ∀ (rest : List Char), (∀ c ∈ rest, UNKNOWN_DIM_CHARS.contains c = true) →
      ∀ (k : Nat), k + rest.length = g.length →
      rest.foldl (mergeStep meta g) (g.take k) = g := by
  intro rest
  induction rest with
  | nil =>
    intro _ k hk
    have hkl : k = g.length := by simpa using hk
    rw [List.foldl_nil, hkl, List.take_length]
  | cons d rest ih =>
    intro hrestall k hk
    rw [List.foldl_cons]
    have hd : UNKNOWN_DIM_CHARS.contains d = true := hrestall d (by simp)
    have hklen : k + (rest.length + 1) = g.length := by simpa using hk
    have hkg : k < g.length := by omega
    have hP : ∀ x ∈ g, (!(meta.contains x)) = true := by
      intro x hx
      have hxm : x ∉ meta := by
        intro hm
        have h1 := hmeta x hm
        rw [hfree x hx] at h1
        exact Bool.false_ne_true h1
      simp [hxm]
    have hstep : mergeStep meta g (g.take k) d = g.take (k + 1) := by
      unfold mergeStep
      rw [hd]
      simp only [Bool.not_true, Bool.false_eq_true, if_false]
      rw [find_not_in_take g hnd k hkg _ hP]
      show g.take k ++ [g[k]] = g.take (k + 1)
      exact List.take_concat_get' g k hkg
    rw [hstep]
    exact ih (fun c hc => hrestall c (by simp [hc])) (k + 1) (by omega)

/-- Merging an all-placeholder metadata string of the right length against a
duplicate-free, placeholder-free canonical guess reproduces the canonical
guess exactly. -/
theorem mergeDimGuesses_all_placeholder (meta g : List Char)
    (hmeta : ∀ c ∈ meta, UNKNOWN_DIM_CHARS.contains c = true)
    (hnd : g.Nodup)
    (hfree : ∀ c ∈ g, UNKNOWN_DIM_CHARS.contains c = false)
    (hlen : meta.length = g.length) :
    mergeDimGuesses meta g = g := by
  have h := merge_fold_take meta g hmeta hnd hfree meta hmeta 0
    (by simpa using hlen)
  simpa [mergeDimGuesses] using h

/-- Claim C4: for every shape and every axis-hint string consisting entirely
of placeholder characters ('Q'/'I'), dimension inference returns a
permutation of the canonical shape-only guess of the same length, with no
duplicate labels, provided the canonical guess itself has distinct
non-placeholder labels. -/
theorem guessTiffDimOrder_all_placeholder_perm
    (dimsFromMeta guessedDims : List Char)
    (hall : dimsFromMeta.all (fun c => UNKNOWN_DIM_CHARS.contains c) = true)
    (hnd : guessedDims.Nodup)
    (hfree : guessedDims.all (fun c => !(UNKNOWN_DIM_CHARS.contains c)) = true)
    (hlen : dimsFromMeta.length = guessedDims.length) :
    List.Perm (guessTiffDimOrder dimsFromMeta guessedDims) guessedDims ∧
    (guessTiffDimOrder dimsFromMeta guessedDims).Nodup := by
  have hmeta : ∀ c ∈ dimsFromMeta, UNKNOWN_DIM_CHARS.contains c = true :=
    List.all_eq_true.1 hall
  have hfree' : ∀ c ∈ guessedDims, UNKNOWN_DIM_CHARS.contains c = false := by
    intro c hc
    simpa using List.all_eq_true.1 hfree c hc
  cases dimsFromMeta with
  | nil =>
    have hg : guessedDims = [] :=
      List.eq_nil_of_length_eq_zero (by simpa using hlen.symm)
    subst hg
    exact ⟨by simp [guessTiffDimOrder], by simp [guessTiffDimOrder]⟩
  | cons m ms =>
    have hm := hmeta m (by simp)
    have hcond : ((m :: ms).all fun c => !(UNKNOWN_DIM_CHARS.contains c))
        = false := by
      simp only [List.all_cons, hm, Bool.not_true, Bool.false_and]
    have heq : guessTiffDimOrder (m :: ms) guessedDims = guessedDims := by
      unfold guessTiffDimOrder
      rw [hcond]
      simp only [Bool.false_eq_true, if_false]
      exact mergeDimGuesses_all_placeholder _ _ hmeta hnd hfree' hlen
    rw [heq]
    exact ⟨List.Perm.refl _, hnd⟩

/-- Concrete instantiation of claim C4 at the all-placeholder hint "QQI" with
canonical shape-only guess "CYX". -/
theorem guessTiffDimOrder_all_placeholder_perm_witness :
    ((['Q', 'Q', 'I'].all fun c => UNKNOWN_DIM_CHARS.contains c) = true ∧
      (['C', 'Y', 'X'] : List Char).Nodup ∧
      (['C', 'Y', 'X'].all fun c => !(UNKNOWN_DIM_CHARS.contains c)) = true ∧
      (['Q', 'Q', 'I'] : List Char).length
        = (['C', 'Y', 'X'] : List Char).length) ∧
    (List.Perm (guessTiffDimOrder ['Q', 'Q', 'I'] ['C', 'Y', 'X'])
        ['C', 'Y', 'X'] ∧
      (guessTiffDimOrder ['Q', 'Q', 'I'] ['C', 'Y', 'X']).Nodup) :=
  ⟨⟨by decide, by decide, by decide, by decide⟩,
    guessTiffDimOrder_all_placeholder_perm _ _ (by decide) (by decide)
      (by decide) (by decide)⟩

/-- The bioio-base constant `dimensions.REQUIRED_CHUNK_DIMS`
(external collaborator): the spatial-Y, spatial-X and samples axis labels,
as one-character strings, that must always be chunked. -/
def REQUIRED_CHUNK_DIMS : List (List Char) := [['Y'], ['X'], ['S']]

/-- One iteration of the loop at reader.py lines 371-373: append a required
chunk dim to the reader's chunk-dims list when it is missing. -/
def appendIfMissing (acc : List (List Char)) (dim : List Char) :
    List (List Char) :=
  if dim ∈ acc then acc else acc ++ [dim]

/-- The in-place `chunk_dims` mutation of `Reader._create_dask_array`
(reader.py lines 370-376): append each of `REQUIRED_CHUNK_DIMS` if missing,
then uppercase every entry. -/
def normalizeChunkDims (chunkDims : List (List Char)) : List (List Char) :=
  (REQUIRED_CHUNK_DIMS.foldl appendIfMissing chunkDims).map
    (List.map Char.toUpper)

/-- The data computed by `Reader._create_dask_array` before the dask graph is
wired: the chunked/non-chunked partition (reader.py lines 394-404), the
blocked order and blocked shape (lines 410-411), the forward transpose
passed to each block read (lines 415-418) and the restoring transpose
applied to the assembled grid (lines 450-456). -/
structure ChunkPlan where
  nonChunkDimOrder : List Char
  nonChunkShape : List Nat
  chunkDimOrder : List Char
  chunkShape : List Nat
  blockedDimOrder : List Char
  blockedShape : List Nat
  transposer : List Nat
  restoreIndices : List Nat

/-- Embedding of the pure computation of `Reader._create_dask_array` past the
length check (reader.py lines 391-456), over the scene's axis labels, the
scene's shape and the (already normalized) chunk-dims list.  The partition
iterates `zip(dims, shape)`; membership tests compare a one-character axis
string against the chunk-dims entries, as Python's `dim in self.chunk_dims`
does. -/
def buildChunkPlan (dims : List Char) (shape : List Nat)
    (chunkDims : List (List Char)) : ChunkPlan :=
  let pairs := dims.zip shape
  let nonChunkPairs := pairs.filter fun p => !(chunkDims.contains [p.1])
  let chunkPairs := pairs.filter fun p => chunkDims.contains [p.1]
  let nonChunkDims := nonChunkPairs.map Prod.fst
  let chunkDimsOrd := chunkPairs.map Prod.fst
  let blocked := nonChunkDims ++ chunkDimsOrd
  { nonChunkDimOrder := nonChunkDims
    nonChunkShape := nonChunkPairs.map Prod.snd
    chunkDimOrder := chunkDimsOrd
    chunkShape := chunkPairs.map Prod.snd
    blockedDimOrder := blocked
    blockedShape :=
      nonChunkPairs.map Prod.snd ++ List.replicate chunkPairs.length 1
    transposer := blocked.map fun d => dims.indexOf d
    restoreIndices := dims.enum.map fun p =>
      let newIndex := blocked.indexOf p.2
      if newIndex ≠ p.1 then newIndex else p.1 }

/-- The errors the embedded reader code can raise. -/
inductive ReaderError where
  | conflictingArguments (msg : String)
  | keyError (key : String)
  | zeroDivision
  deriving DecidableEq

/-- The error raised at reader.py lines 383-389 when the resolved dims string
does not match the scene shape length. -/
def dimsMismatchError (shape : List Nat) (dims : List Char) : ReaderError :=
  ReaderError.conflictingArguments
    ("Dimension string provided does not match the number of dimensions "
      ++ "found for this scene. This scene shape: " ++ toString shape
      ++ ", Provided dims string: " ++ String.mk dims)

/-- The mutable fields of a `Reader` instance that the delayed-read path can
see: the resolved filesystem path, the current scene index, the chunk-dims
list, the caller-supplied dim-order and channel-names arguments, and the two
memoization caches. -/
structure ReaderState where
  path : String
  currentSceneIndex : Nat
  chunkDims : List (List Char)
  dimOrderArg : Option (List (Option (List Char)))
  channelNamesArg : Option (List (List Char))
  scenesCache : Option (List String)
  pixelSizesCache : Option (Option ℚ × Option ℚ × Option ℚ)

/-- Embedding of `Reader._create_dask_array` (reader.py lines 353-461) at the
state level: first the in-place `chunk_dims` normalization (lines 370-376),
then the dims/shape length check (lines 383-389), then the chunk-plan
construction.  Returns the mutated reader state together with either the
raised error or the computed plan. -/
def createDaskArray (st : ReaderState) (dims : List Char)
    (shape : List Nat) : ReaderState × Except ReaderError ChunkPlan :=
  let st' := { st with chunkDims := normalizeChunkDims st.chunkDims }
  if shape.length ≠ dims.length then
    (st', Except.error (dimsMismatchError shape dims))
  else
    (st', Except.ok (buildChunkPlan dims shape st'.chunkDims))

/-- Auxiliary: `appendIfMissing` folds only ever append to the accumulator. -/
theorem foldl_appendIfMissing_append :
    ∀ (req : List (List Char)) (acc : List (List Char)),
      ∃ t, req.foldl appendIfMissing acc = acc ++ t := by
  intro req
  induction req with
  | nil => exact fun acc => ⟨[], by simp⟩
  | cons a rs ih =>
    intro acc
    rw [List.foldl_cons]
    by_cases ha : a ∈ acc
    · have hstep : appendIfMissing acc a = acc := by
        unfold appendIfMissing
        rw [if_pos ha]
      rw [hstep]
      exact ih acc
    · have hstep : appendIfMissing acc a = acc ++ [a] := by
        unfold appendIfMissing
        rw [if_neg ha]
      rw [hstep]
      obtain ⟨t, ht⟩ := ih (acc ++ [a])
      exact ⟨[a] ++ t, by rw [ht, List.append_assoc]⟩

/-- Auxiliary: every element of the folded-over list ends up in the result of
an `appendIfMissing` fold. -/
theorem mem_foldl_appendIfMissing :
    ∀ (req : List (List Char)) (acc : List (List Char)) (r : List Char),
      r ∈ req → r ∈ req.foldl appendIfMissing acc := by
  intro req
  induction req with
  | nil => intro acc r hr; simp at hr
  | cons a rs ih =>
    intro acc r hr
    rw [List.foldl_cons]
    rcases List.mem_cons.1 hr with h | h
    · subst h
      obtain ⟨t, ht⟩ := foldl_appendIfMissing_append rs (appendIfMissing acc r)
      rw [ht]
      have : r ∈ appendIfMissing acc r := by
        unfold appendIfMissing
        by_cases hr' : r ∈ acc
        · rw [if_pos hr']; exact hr'
        · rw [if_neg hr']; simp
      exact List.mem_append_left _ this
    · exact ih _ r h

/-- Auxiliary: when some folded-over element is missing from the accumulator,
an `appendIfMissing` fold strictly grows it. -/
theorem length_lt_foldl_appendIfMissing :
    ∀ (req : List (List Char)) (acc : List (List Char)),
      (∃ r ∈ req, r ∉ acc) →
      acc.length < (req.foldl appendIfMissing acc).length := by
  intro req
  induction req with
  | nil => intro acc h; simp at h
  | cons a rs ih =>
    intro acc ⟨r, hr, hracc⟩
    rw [List.foldl_cons]
    by_cases ha : a ∈ acc
    · have hstep : appendIfMissing acc a = acc := by
        unfold appendIfMissing
        rw [if_pos ha]
      rw [hstep]
      refine ih acc ⟨r, ?_, hracc⟩
      rcases List.mem_cons.1 hr with h | h
      · exact absurd (h ▸ ha) hracc
      · exact h
    · have hstep : appendIfMissing acc a = acc ++ [a] := by
        unfold appendIfMissing
        rw [if_neg ha]
      rw [hstep]
      obtain ⟨t, ht⟩ := foldl_appendIfMissing_append rs (acc ++ [a])
      rw [ht]
      simp

/-- Auxiliary: every required chunk dim is present after normalization. -/
theorem required_mem_normalizeChunkDims (cd : List (List Char)) :
    ∀ r ∈ REQUIRED_CHUNK_DIMS, r ∈ normalizeChunkDims cd := by
  intro r hr
  have h1 : r ∈ REQUIRED_CHUNK_DIMS.foldl appendIfMissing cd :=
    mem_foldl_appendIfMissing _ _ _ hr
  have h2 : r.map Char.toUpper = r := by
    have : r = ['Y'] ∨ r = ['X'] ∨ r = ['S'] := by
      simpa [REQUIRED_CHUNK_DIMS] using hr
    rcases this with h | h | h <;> subst h <;> decide
  have h3 : r.map Char.toUpper ∈ normalizeChunkDims cd :=
    List.mem_map_of_mem (List.map Char.toUpper) h1
  rwa [h2] at h3

/-- Auxiliary: a list equal to its own map is fixed pointwise. -/
theorem map_fixed_of_eq :
    ∀ (l : List (List Char)) (f : List Char → List Char),
      l.map f = l → ∀ x ∈ l, f x = x := by
  intro l
  induction l with
  | nil => intro f _ x hx; simp at hx
  | cons a t ih =>
    intro f hf x hx
    rw [List.map_cons] at hf
    have h1 : f a = a := (List.cons.injEq _ _ _ _ ▸ hf).1
    have h2 : t.map f = t := (List.cons.injEq _ _ _ _ ▸ hf).2
    rcases List.mem_cons.1 hx with h | h
    · exact h ▸ h1
    · exact ih f h2 x h

/-- Auxiliary: projecting the first components out of a filtered zip of
equal-length lists is a plain filter of the first list. -/
theorem filter_zip_map_fst (P : Char → Bool) :
    ∀ (ds : List Char) (ss : List Nat), ds.length = ss.length →
      ((ds.zip ss).filter fun p => P p.1).map Prod.fst = ds.filter P := by
  intro ds
  induction ds with
  | nil => intro ss _; simp
  | cons d dt ih =>
    intro ss hlen
    cases ss with
    | nil => simp at hlen
    | cons s st =>
      have hlen' : dt.length = st.length := by simpa using hlen
      rw [List.zip_cons_cons]
      cases hP : P d with
      | true => simp [List.filter_cons, hP, ih st hlen']
      | false => simp [List.filter_cons, hP, ih st hlen']

/-- Auxiliary: a chunk-dims list that is missing a required dim or holds an
entry not fixed by uppercasing is changed by normalization. -/
theorem normalizeChunkDims_ne_of_unnormalized (cd : List (List Char))
    (h : (∃ r ∈ REQUIRED_CHUNK_DIMS, r ∉ cd) ∨
      (∃ e ∈ cd, e.map Char.toUpper ≠ e)) :
    normalizeChunkDims cd ≠ cd := by
  intro heq
  rcases h with ⟨r, hr, hrcd⟩ | ⟨e, he, hne⟩
  · have hlt : cd.length
        < (REQUIRED_CHUNK_DIMS.foldl appendIfMissing cd).length :=
      length_lt_foldl_appendIfMissing _ _ ⟨r, hr, hrcd⟩
    have hlenmap : (normalizeChunkDims cd).length
        = (REQUIRED_CHUNK_DIMS.foldl appendIfMissing cd).length := by
      simp [normalizeChunkDims]
    rw [heq] at hlenmap
    omega
  · obtain ⟨t, ht⟩ := foldl_appendIfMissing_append REQUIRED_CHUNK_DIMS cd
    have h2 : normalizeChunkDims cd
        = cd.map (List.map Char.toUpper) ++ t.map (List.map Char.toUpper) := by
      unfold normalizeChunkDims
      rw [ht, List.map_append]
    rw [h2] at heq
    have hlen : cd.length + t.length = cd.length := by
      have := congrArg List.length heq
      simpa using this
    have ht0 : t = [] := List.eq_nil_of_length_eq_zero (by omega)
    rw [ht0] at heq
    simp at heq
    exact hne (map_fixed_of_eq cd (List.map Char.toUpper) heq e he)

/-- Claim C2: for every axis-label list and shape of equal length and every
caller-supplied chunk-axis set, the partition built by `_create_dask_array`
satisfies: the number of non-chunked axes plus the number of chunked axes
equals the total number of axes, each group preserves the relative order of
the original axis order (is a sublist of it), and every spatial-Y, spatial-X
or samples axis of the scene lands in the chunked group even when absent from
the caller's `chunk_dims` request. -/
theorem buildChunkPlan_partition (dims : List Char) (shape : List Nat)
    (chunkDimsArg : List (List Char)) (hlen : dims.length = shape.length) :
    (buildChunkPlan dims shape
        (normalizeChunkDims chunkDimsArg)).nonChunkDimOrder.length
      + (buildChunkPlan dims shape
          (normalizeChunkDims chunkDimsArg)).chunkDimOrder.length
      = dims.length ∧
    List.Sublist (buildChunkPlan dims shape
      (normalizeChunkDims chunkDimsArg)).nonChunkDimOrder dims ∧
    List.Sublist (buildChunkPlan dims shape
      (normalizeChunkDims chunkDimsArg)).chunkDimOrder dims ∧
    (dims.all fun d => !(REQUIRED_CHUNK_DIMS.contains [d])
      || (buildChunkPlan dims shape
          (normalizeChunkDims chunkDimsArg)).chunkDimOrder.contains d)
      = true := by
  have hnc : (buildChunkPlan dims shape
      (normalizeChunkDims chunkDimsArg)).nonChunkDimOrder
      = dims.filter fun d => !((normalizeChunkDims chunkDimsArg).contains [d]) := by
    show ((dims.zip shape).filter fun p =>
      !((normalizeChunkDims chunkDimsArg).contains [p.1])).map Prod.fst = _
    exact filter_zip_map_fst
      (fun d => !((normalizeChunkDims chunkDimsArg).contains [d]))
      dims shape hlen
  have hc : (buildChunkPlan dims shape
      (normalizeChunkDims chunkDimsArg)).chunkDimOrder
      = dims.filter fun d => (normalizeChunkDims chunkDimsArg).contains [d] := by
    show ((dims.zip shape).filter fun p =>
      (normalizeChunkDims chunkDimsArg).contains [p.1]).map Prod.fst = _
    exact filter_zip_map_fst
      (fun d => (normalizeChunkDims chunkDimsArg).contains [d])
      dims shape hlen
  refine ⟨?_, ?_, ?_, ?_⟩
  · rw [hnc, hc]
    have hsum := List.length_eq_length_filter_add
      (l := dims) (fun d => (normalizeChunkDims chunkDimsArg).contains [d])
    rw [hsum]
    exact Nat.add_comm _ _
  · rw [hnc]
    exact List.filter_sublist dims
  · rw [hc]
    exact List.filter_sublist dims
  · refine List.all_eq_true.2 ?_
    intro d hd
    by_cases hreq : [d] ∈ REQUIRED_CHUNK_DIMS
    · have hmem : [d] ∈ normalizeChunkDims chunkDimsArg :=
        required_mem_normalizeChunkDims chunkDimsArg [d] hreq
      have hd' : d ∈ (buildChunkPlan dims shape
          (normalizeChunkDims chunkDimsArg)).chunkDimOrder := by
        rw [hc]
        exact List.mem_filter.2 ⟨hd, by simp [hmem]⟩
      simp [hd']
    · simp [hreq]

/-- Concrete instantiation of claim C2 at dims "TCZYX", shape (1,2,3,4,5) and
a caller chunk request of just "Z". -/
theorem buildChunkPlan_partition_witness :
    (['T', 'C', 'Z', 'Y', 'X'] : List Char).length
      = ([1, 2, 3, 4, 5] : List Nat).length ∧
    ((buildChunkPlan ['T', 'C', 'Z', 'Y', 'X'] [1, 2, 3, 4, 5]
        (normalizeChunkDims [['Z']])).nonChunkDimOrder.length
      + (buildChunkPlan ['T', 'C', 'Z', 'Y', 'X'] [1, 2, 3, 4, 5]
          (normalizeChunkDims [['Z']])).chunkDimOrder.length
      = (['T', 'C', 'Z', 'Y', 'X'] : List Char).length ∧
    List.Sublist (buildChunkPlan ['T', 'C', 'Z', 'Y', 'X'] [1, 2, 3, 4, 5]
      (normalizeChunkDims [['Z']])).nonChunkDimOrder ['T', 'C', 'Z', 'Y', 'X'] ∧
    List.Sublist (buildChunkPlan ['T', 'C', 'Z', 'Y', 'X'] [1, 2, 3, 4, 5]
      (normalizeChunkDims [['Z']])).chunkDimOrder ['T', 'C', 'Z', 'Y', 'X'] ∧
    (['T', 'C', 'Z', 'Y', 'X'].all fun d =>
      !(REQUIRED_CHUNK_DIMS.contains [d])
      || (buildChunkPlan ['T', 'C', 'Z', 'Y', 'X'] [1, 2, 3, 4, 5]
          (normalizeChunkDims [['Z']])).chunkDimOrder.contains d) = true) :=
  ⟨by decide, buildChunkPlan_partition _ _ _ (by decide)⟩

/-- Claim C8: whenever the resolved axis-label string's length differs from
the scene shape's length, `_create_dask_array` returns the
ConflictingArgumentsError synchronously, before any array is constructed. -/
theorem createDaskArray_length_mismatch_error (st : ReaderState)
    (dims : List Char) (shape : List Nat)
    (h : shape.length ≠ dims.length) :
    (createDaskArray st dims shape).2
      = Except.error (dimsMismatchError shape dims) := by
  unfold createDaskArray
  rw [if_pos h]

/-- Concrete instantiation of claim C8: a 3-axis shape with a 2-character
dims string raises the mismatch error. -/
theorem createDaskArray_length_mismatch_error_witness :
    (([2, 3, 4] : List Nat).length ≠ (['Y', 'X'] : List Char).length) ∧
    (createDaskArray
        ⟨"image.tif", 0, [], Option.none, Option.none, Option.none,
          Option.none⟩
        ['Y', 'X'] [2, 3, 4]).2
      = Except.error (dimsMismatchError [2, 3, 4] ['Y', 'X']) :=
  ⟨by decide, createDaskArray_length_mismatch_error _ _ _ (by decide)⟩

/-- Claim C10: calling `_create_dask_array` mutates the Reader's `chunk_dims`
field in place — required dims Y, X and Samples are appended when missing and
every entry is uppercased — so for a lowercase or incomplete caller-supplied
value the observable `chunk_dims` differs from it after the first read, while
every other Reader field is unchanged by the read. -/
theorem createDaskArray_mutates_only_chunkDims (st : ReaderState)
    (dims : List Char) (shape : List Nat)
    (h : (∃ r ∈ REQUIRED_CHUNK_DIMS, r ∉ st.chunkDims) ∨
      (∃ e ∈ st.chunkDims, e.map Char.toUpper ≠ e)) :
    (createDaskArray st dims shape).1.chunkDims
        = normalizeChunkDims st.chunkDims ∧
    (createDaskArray st dims shape).1.chunkDims ≠ st.chunkDims ∧
    (createDaskArray st dims shape).1.path = st.path ∧
    (createDaskArray st dims shape).1.currentSceneIndex
        = st.currentSceneIndex ∧
    (createDaskArray st dims shape).1.dimOrderArg = st.dimOrderArg ∧
    (createDaskArray st dims shape).1.channelNamesArg = st.channelNamesArg ∧
    (createDaskArray st dims shape).1.scenesCache = st.scenesCache ∧
    (createDaskArray st dims shape).1.pixelSizesCache
        = st.pixelSizesCache := by
  have h1 : (createDaskArray st dims shape).1
      = { st with chunkDims := normalizeChunkDims st.chunkDims } := by
    unfold createDaskArray
    by_cases hc : shape.length ≠ dims.length
    · rw [if_pos hc]
    · rw [if_neg hc]
  rw [h1]
  exact ⟨rfl, normalizeChunkDims_ne_of_unnormalized st.chunkDims h, rfl, rfl,
    rfl, rfl, rfl, rfl⟩

/-- Concrete instantiation of claim C10 at a reader whose chunk-dims were
supplied as the lowercase, incomplete list ["t", "y"]. -/
theorem createDaskArray_mutates_only_chunkDims_witness :
    ((∃ r ∈ REQUIRED_CHUNK_DIMS,
        r ∉ (⟨"image.tif", 0, [['t'], ['y']], Option.none, Option.none,
          Option.none, Option.none⟩ : ReaderState).chunkDims) ∨
      (∃ e ∈ (⟨"image.tif", 0, [['t'], ['y']], Option.none, Option.none,
          Option.none, Option.none⟩ : ReaderState).chunkDims,
        e.map Char.toUpper ≠ e)) ∧
    ((createDaskArray
        ⟨"image.tif", 0, [['t'], ['y']], Option.none, Option.none,
          Option.none, Option.none⟩ ['Y', 'X'] [2, 3]).1.chunkDims
      = normalizeChunkDims [['t'], ['y']] ∧
    (createDaskArray
        ⟨"image.tif", 0, [['t'], ['y']], Option.none, Option.none,
          Option.none, Option.none⟩ ['Y', 'X'] [2, 3]).1.chunkDims
      ≠ [['t'], ['y']] ∧
    (createDaskArray
        ⟨"image.tif", 0, [['t'], ['y']], Option.none, Option.none,
          Option.none, Option.none⟩ ['Y', 'X'] [2, 3]).1.path = "image.tif" ∧
    (createDaskArray
        ⟨"image.tif", 0, [['t'], ['y']], Option.none, Option.none,
          Option.none, Option.none⟩ ['Y', 'X'] [2, 3]).1.currentSceneIndex
      = 0 ∧
    (createDaskArray
        ⟨"image.tif", 0, [['t'], ['y']], Option.none, Option.none,
          Option.none, Option.none⟩ ['Y', 'X'] [2, 3]).1.dimOrderArg
      = Option.none ∧
    (createDaskArray
        ⟨"image.tif", 0, [['t'], ['y']], Option.none, Option.none,
          Option.none, Option.none⟩ ['Y', 'X'] [2, 3]).1.channelNamesArg
      = Option.none ∧
    (createDaskArray
        ⟨"image.tif", 0, [['t'], ['y']], Option.none, Option.none,
          Option.none, Option.none⟩ ['Y', 'X'] [2, 3]).1.scenesCache
      = Option.none ∧
    (createDaskArray
        ⟨"image.tif", 0, [['t'], ['y']], Option.none, Option.none,
          Option.none, Option.none⟩ ['Y', 'X'] [2, 3]).1.pixelSizesCache
      = Option.none) :=
  ⟨Or.inl (by decide), createDaskArray_mutates_only_chunkDims _ _ _
    (Or.inl (by decide))⟩

/-- Embedding of `generate_ome_image_id` (utils.py lines 34-50). -/
def generateOmeImageId (imageId : Nat) : String :=
  "Image:" ++ toString imageId

/-- The scene tuple built by `Reader.scenes` (reader.py lines 141-151): one
OME image id per series found in the file. -/
def scenesOf (numSeries : Nat) : List String :=
  (List.range numSeries).map generateOmeImageId

/-- The `dim_order` constructor argument of `Reader.__init__`
(`Optional[Union[List[str], str]]`), as a tagged variant. -/
inductive DimOrderArg where
  | noArg
  | strArg (s : List Char)
  | listArg (l : List (Option (List Char)))
  deriving DecidableEq

/-- The `channel_names` constructor argument of `Reader.__init__`
(`Optional[Union[List[str], List[List[str]]]]`), as a tagged variant. -/
inductive ChannelNamesArg where
  | noArg
  | flat (l : List (List Char))
  | nested (l : List (List (List Char)))
  deriving DecidableEq

/-- The error raised at reader.py lines 112-117 when a dim-order list's
length does not match the scene count. -/
def dimOrderCountError (numScenes provided : Nat) : ReaderError :=
  ReaderError.conflictingArguments
    ("Number of dimension strings provided does not match the number of "
      ++ "scenes found in the file. Number of scenes: " ++ toString numScenes
      ++ ", Number of provided dimension order strings: " ++ toString provided)

/-- The error raised at reader.py lines 124-129 when a nested channel-names
list's length does not match the scene count. -/
def channelNamesCountError (numScenes provided : Nat) : ReaderError :=
  ReaderError.conflictingArguments
    ("Number of channel name lists provided does not match the number of "
      ++ "scenes found in the file. Number of scenes: " ++ toString numScenes
      ++ ", Provided channel name lists: " ++ toString provided)

/-- The channel-names validation of `Reader.__init__` (reader.py lines
119-129): only a non-empty list whose first entry is itself a list is
checked against the scene count. -/
def checkChannelNamesArg (numScenes : Nat)
    (channelNames : ChannelNamesArg) : Except ReaderError Unit :=
  match channelNames with
  | ChannelNamesArg.nested ls =>
    if 0 < ls.length then
      if ls.length ≠ numScenes then
        Except.error (channelNamesCountError numScenes ls.length)
      else Except.ok ()
    else Except.ok ()
  | _ => Except.ok ()

/-- The validation performed by `Reader.__init__` (reader.py lines 110-129):
a list-valued `dim_order` must have exactly one entry per scene, then the
channel-names argument is checked; both before any image data is read. -/
def readerInitCheck (numScenes : Nat) (dimOrder : DimOrderArg)
    (channelNames : ChannelNamesArg) : Except ReaderError Unit :=
  match dimOrder with
  | DimOrderArg.listArg l =>
    if l.length ≠ numScenes then
      Except.error (dimOrderCountError numScenes l.length)
    else checkChannelNamesArg numScenes channelNames
  | _ => checkChannelNamesArg numScenes channelNames

/-- Claim C9: for every file with N scenes, constructing a Reader with
`dim_order` given as a list whose length is not N raises
ConflictingArgumentsError during construction, before any image data is
read. -/
theorem readerInitCheck_dimOrder_list_mismatch (numSeries : Nat)
    (l : List (Option (List Char))) (channelNames : ChannelNamesArg)
    (h : l.length ≠ numSeries) :
    readerInitCheck (scenesOf numSeries).length (DimOrderArg.listArg l)
        channelNames
      = Except.error (dimOrderCountError numSeries l.length) := by
  have hs : (scenesOf numSeries).length = numSeries := by simp [scenesOf]
  rw [hs]
  simp only [readerInitCheck]
  rw [if_pos h]

/-- Concrete instantiation of claim C9: a 2-scene file given a 3-element
dim-order list. -/
theorem readerInitCheck_dimOrder_list_mismatch_witness :
    (([Option.none, Option.none, Option.none]
        : List (Option (List Char))).length ≠ 2) ∧
    readerInitCheck (scenesOf 2).length
        (DimOrderArg.listArg [Option.none, Option.none, Option.none])
        ChannelNamesArg.noArg
      = Except.error (dimOrderCountError 2 3) :=
  ⟨by decide, readerInitCheck_dimOrder_list_mismatch 2 _ _ (by decide)⟩

/-- The label action of `da.transpose` (reader.py lines 209 and 459): axis
`i` of the transposed array is axis `perm[i]` of the input, so the result's
label list is the permutation mapped over the input labels. -/
def applyTransposeLabels (perm : List Nat) (labels : List Char) : List Char :=
  perm.map fun k => labels.getD k ' '

/-- Auxiliary: the branch in the restoring-transpose loop (reader.py lines
450-456) is a no-op, so the enumerated map is a plain `indexOf` map. -/
theorem enum_if_indexOf_eq_map (l : List Char) (bl : List Char) :
    (l.enum.map fun p =>
      let newIndex := bl.indexOf p.2
      if newIndex ≠ p.1 then newIndex else p.1)
    = l.map fun d => bl.indexOf d := by
  have hfun : (fun p : Nat × Char =>
      let newIndex := bl.indexOf p.2
      if newIndex ≠ p.1 then newIndex else p.1)
      = fun p : Nat × Char => bl.indexOf p.2 := by
    funext p
    by_cases hne : bl.indexOf p.2 ≠ p.1
    · simp [hne]
    · push_neg at hne
      simp [hne]
  rw [hfun]
  have h1 : (l.enum.map fun p : Nat × Char => bl.indexOf p.2)
      = (l.enum.map Prod.snd).map fun d => bl.indexOf d := by
    rw [List.map_map]
    rfl
  rw [h1, List.enum_map_snd]

/-- Auxiliary: the plan's restoring transpose is, position by position, the
blocked index of the original label at that position. -/
theorem restoreIndices_eq_map (dims : List Char) (shape : List Nat)
    (cd : List (List Char)) :
    (buildChunkPlan dims shape cd).restoreIndices
      = dims.map fun d =>
          (buildChunkPlan dims shape cd).blockedDimOrder.indexOf d :=
  enum_if_indexOf_eq_map dims (buildChunkPlan dims shape cd).blockedDimOrder

/-- Auxiliary: the blocked dim order is a permutation of the scene's axis
order whenever the dims and shape agree in length. -/
theorem blockedDimOrder_perm (dims : List Char) (shape : List Nat)
    (cd : List (List Char)) (hlen : dims.length = shape.length) :
    List.Perm (buildChunkPlan dims shape cd).blockedDimOrder dims := by
  have hb : (buildChunkPlan dims shape cd).blockedDimOrder
      = (dims.filter fun d => !(cd.contains [d]))
        ++ (dims.filter fun d => cd.contains [d]) := by
    show ((dims.zip shape).filter fun p => !(cd.contains [p.1])).map Prod.fst
        ++ ((dims.zip shape).filter fun p => cd.contains [p.1]).map Prod.fst
      = _
    rw [filter_zip_map_fst (fun d => !(cd.contains [d])) dims shape hlen,
      filter_zip_map_fst (fun d => cd.contains [d]) dims shape hlen]
  rw [hb]
  exact List.Perm.trans List.perm_append_comm
    (List.filter_append_perm (fun d => cd.contains [d]) dims)

/-- Claim C1: in `_create_dask_array`, for every scene whose resolved
axis-label list has pairwise-distinct labels, the forward permutation (for
each axis in blocked order, its first index within the original axis order)
and the restore permutation (for each position in the original axis order,
where that label landed in the blocked order) are mutually inverse, and
applying the restore transpose after the forward transpose yields the
original axis order. -/
theorem buildChunkPlan_transpose_inverse (dims : List Char)
    (shape : List Nat) (cd : List (List Char)) (hnd : dims.Nodup)
    (hlen : dims.length = shape.length) :
    ((buildChunkPlan dims shape cd).restoreIndices.map fun k =>
        (buildChunkPlan dims shape cd).transposer.getD k 0)
      = List.range dims.length ∧
    ((buildChunkPlan dims shape cd).transposer.map fun k =>
        (buildChunkPlan dims shape cd).restoreIndices.getD k 0)
      = List.range dims.length ∧
    applyTransposeLabels (buildChunkPlan dims shape cd).restoreIndices
        (applyTransposeLabels (buildChunkPlan dims shape cd).transposer dims)
      = dims := by
  have hperm : List.Perm (buildChunkPlan dims shape cd).blockedDimOrder dims :=
    blockedDimOrder_perm dims shape cd hlen
  set bl := (buildChunkPlan dims shape cd).blockedDimOrder with hbl
  have hbnd : bl.Nodup := hperm.symm.nodup hnd
  have hlenb : bl.length = dims.length := hperm.length_eq
  have htr : (buildChunkPlan dims shape cd).transposer
      = bl.map fun d => dims.indexOf d := rfl
  have hre : (buildChunkPlan dims shape cd).restoreIndices
      = dims.map fun d => bl.indexOf d := restoreIndices_eq_map dims shape cd
  refine ⟨?_, ?_, ?_⟩
  · rw [hre, htr, List.map_map]
    refine List.ext_getElem (by simp) ?_
    intro i h1 h2
    have hi : i < dims.length := by simpa using h1
    simp only [List.getElem_map, Function.comp_apply, List.getElem_range]
    have hmem : dims[i] ∈ bl := hperm.mem_iff.2 (dims.getElem_mem hi)
    have hidx : bl.indexOf dims[i] < bl.length :=
      List.indexOf_lt_length.2 hmem
    rw [List.getD_eq_getElem _ _ (by simpa using hidx)]
    rw [List.getElem_map]
    rw [List.getElem_indexOf hidx]
    exact List.indexOf_getElem hnd i hi
  · rw [hre, htr, List.map_map]
    refine List.ext_getElem (by simp [hlenb]) ?_
    intro i h1 h2
    have hi : i < bl.length := by simpa using h1
    simp only [List.getElem_map, Function.comp_apply, List.getElem_range]
    have hmem : bl[i] ∈ dims := hperm.mem_iff.1 (bl.getElem_mem hi)
    have hidx : dims.indexOf bl[i] < dims.length :=
      List.indexOf_lt_length.2 hmem
    rw [List.getD_eq_getElem _ _ (by simpa using hidx)]
    rw [List.getElem_map]
    rw [List.getElem_indexOf hidx]
    exact List.indexOf_getElem hbnd i hi
  · have h3 : applyTransposeLabels
        (buildChunkPlan dims shape cd).transposer dims = bl := by
      rw [applyTransposeLabels, htr, List.map_map]
      have hpt : ∀ d ∈ bl,
          ((fun k => dims.getD k ' ') ∘ fun d => dims.indexOf d) d = id d := by
        intro d hd
        have hdm : d ∈ dims := hperm.mem_iff.1 hd
        have hlt : dims.indexOf d < dims.length :=
          List.indexOf_lt_length.2 hdm
        show dims.getD (dims.indexOf d) ' ' = d
        rw [List.getD_eq_getElem _ _ hlt]
        exact List.getElem_indexOf hlt
      exact (List.map_congr_left hpt).trans (List.map_id bl)
    have h4 : applyTransposeLabels
        (buildChunkPlan dims shape cd).restoreIndices bl = dims := by
      rw [applyTransposeLabels, hre, List.map_map]
      have hpt : ∀ d ∈ dims,
          ((fun k => bl.getD k ' ') ∘ fun d => bl.indexOf d) d = id d := by
        intro d hd
        have hdm : d ∈ bl := hperm.mem_iff.2 hd
        have hlt : bl.indexOf d < bl.length :=
          List.indexOf_lt_length.2 hdm
        show bl.getD (bl.indexOf d) ' ' = d
        rw [List.getD_eq_getElem _ _ hlt]
        exact List.getElem_indexOf hlt
      exact (List.map_congr_left hpt).trans (List.map_id dims)
    rw [h3]
    exact h4

/-- Concrete instantiation of claim C1 at dims "TZYX", shape (2,3,4,5) and
the normalized form of the caller chunk request "T". -/
theorem buildChunkPlan_transpose_inverse_witness :
    ((['T', 'Z', 'Y', 'X'] : List Char).Nodup ∧
      (['T', 'Z', 'Y', 'X'] : List Char).length
        = ([2, 3, 4, 5] : List Nat).length) ∧
    (((buildChunkPlan ['T', 'Z', 'Y', 'X'] [2, 3, 4, 5]
          (normalizeChunkDims [['T']])).restoreIndices.map fun k =>
        (buildChunkPlan ['T', 'Z', 'Y', 'X'] [2, 3, 4, 5]
          (normalizeChunkDims [['T']])).transposer.getD k 0)
      = List.range (['T', 'Z', 'Y', 'X'] : List Char).length ∧
    ((buildChunkPlan ['T', 'Z', 'Y', 'X'] [2, 3, 4, 5]
          (normalizeChunkDims [['T']])).transposer.map fun k =>
        (buildChunkPlan ['T', 'Z', 'Y', 'X'] [2, 3, 4, 5]
          (normalizeChunkDims [['T']])).restoreIndices.getD k 0)
      = List.range (['T', 'Z', 'Y', 'X'] : List Char).length ∧
    applyTransposeLabels
        (buildChunkPlan ['T', 'Z', 'Y', 'X'] [2, 3, 4, 5]
          (normalizeChunkDims [['T']])).restoreIndices
        (applyTransposeLabels
          (buildChunkPlan ['T', 'Z', 'Y', 'X'] [2, 3, 4, 5]
            (normalizeChunkDims [['T']])).transposer
          ['T', 'Z', 'Y', 'X'])
      = ['T', 'Z', 'Y', 'X']) :=
  ⟨⟨by decide, by decide⟩,
    buildChunkPlan_transpose_inverse _ _ _ (by decide) (by decide)⟩

/-- A resolution-unit token as it appears in a tiff tag value or in the
ImageJ metadata dict: a string, a tifffile RESUNIT enum code, or Python
None. -/
inductive UnitToken where
  | str (s : String)
  | resunit (code : Nat)
  | noneTok
  deriving DecidableEq

/-- Embedding of the `_NAME_TO_MICRONS` dict (reader.py lines 570-590) as
the partial lookup Python's `dict.get` performs.  The tifffile RESUNIT codes
are NONE = 1, INCH = 2, CENTIMETER = 3, MILLIMETER = 4, MICROMETER = 5. -/
def NAME_TO_MICRONS : UnitToken → Option ℚ
  | UnitToken.str "pm" => some (1 / 1000000)
  | UnitToken.str "picometer" => some (1 / 1000000)
  | UnitToken.str "nm" => some (1 / 1000)
  | UnitToken.str "nanometer" => some (1 / 1000)
  | UnitToken.str "micron" => some 1
  | UnitToken.str "µm" => some 1
  | UnitToken.str "um" => some 1
  | UnitToken.str "\\u00B5m" => some 1
  | UnitToken.resunit 1 => some 1
  | UnitToken.resunit 5 => some 1
  | UnitToken.noneTok => some 1
  | UnitToken.str "mm" => some 1000
  | UnitToken.str "millimeter" => some 1000
  | UnitToken.resunit 4 => some 1000
  | UnitToken.str "cm" => some 10000
  | UnitToken.str "centimeter" => some 10000
  | UnitToken.resunit 3 => some 10000
  | UnitToken.str "cal" => some 25400
  | UnitToken.resunit 2 => some 25400
  | _ => Option.none

/-- The resolution-relevant tags of a scene's first page: the ResolutionUnit
value and the (numerator, denominator) fractions of XResolution and
YResolution, each absent when the file does not carry the tag. -/
structure ResolutionTags where
  resolutionUnit : Option UnitToken
  xResolution : Option (ℚ × ℚ)
  yResolution : Option (ℚ × ℚ)

/-- The inputs `_get_pixel_size` reads from an open TiffFile: the ImageJ
flag, the ImageJ metadata "unit" and "spacing" entries, and the first page's
tags of the selected series. -/
structure TiffModel where
  isImageJ : Bool
  imagejUnit : Option UnitToken
  imagejSpacing : Option ℚ
  tags : ResolutionTags

/-- Python mapping subscript access: the value, or a raised KeyError when
the key is absent. -/
def getItem {α : Type} (m : Option α) (key : String) :
    Except ReaderError α :=
  match m with
  | some v => Except.ok v
  | Option.none => Except.error (ReaderError.keyError key)

/-- Embedding of `_get_pixel_size` (reader.py lines 593-622).  On an ImageJ
file the unit and the optional Z spacing come from the ImageJ metadata dict,
where subscript access to "unit" raises when absent but `.get("spacing",
None)` does not; otherwise the unit comes from the ResolutionUnit tag by
subscript access and there is no Z size.  The unit scalar defaults to 1 for
tokens missing from `_NAME_TO_MICRONS`.  The sizes invert the
pixels-per-unit fractions; a zero numerator is Python's ZeroDivisionError,
and the Z spacing, when present, is multiplied by the unit scalar. -/
def getPixelSize (t : TiffModel) :
    Except ReaderError (Option ℚ × ℚ × ℚ) :=
  match (if t.isImageJ then
      match getItem t.imagejUnit "unit" with
      | Except.ok u => Except.ok (u, t.imagejSpacing)
      | Except.error e => Except.error e
    else
      match getItem t.tags.resolutionUnit "ResolutionUnit" with
      | Except.ok u => Except.ok (u, (Option.none : Option ℚ))
      | Except.error e => Except.error e) with
  | Except.error e => Except.error e
  | Except.ok unitAndZ =>
    let scalar := (NAME_TO_MICRONS unitAndZ.1).getD 1
    match getItem t.tags.xResolution "XResolution" with
    | Except.error e => Except.error e
    | Except.ok xres =>
      match getItem t.tags.yResolution "YResolution" with
      | Except.error e => Except.error e
      | Except.ok yres =>
        if xres.1 = 0 then
          Except.error ReaderError.zeroDivision
        else if yres.1 = 0 then
          Except.error ReaderError.zeroDivision
        else
          Except.ok (unitAndZ.2.map (· * scalar),
            scalar * yres.2 / yres.1, scalar * xres.2 / xres.1)

/-- Embedding of the `Reader.physical_pixel_sizes` property (reader.py lines
153-169): any exception from `_get_pixel_size` is caught, a warning is
emitted (the Bool component), and the sizes degrade to all-None. -/
def physicalPixelSizes (t : TiffModel) :
    (Option ℚ × Option ℚ × Option ℚ) × Bool :=
  match getPixelSize t with
  | Except.ok (z, y, x) => ((z, some y, some x), false)
  | Except.error _ => ((Option.none, Option.none, Option.none), true)

/-- Auxiliary: the success-path value of `_get_pixel_size`, for either unit
source, with the unit scalar left symbolic. -/
theorem getPixelSize_success_eq (t : TiffModel) (u : UnitToken)
    (xn xd yn yd : ℚ)
    (hu : (t.isImageJ = true ∧ t.imagejUnit = some u) ∨
      (t.isImageJ = false ∧ t.tags.resolutionUnit = some u))
    (hx : t.tags.xResolution = some (xn, xd))
    (hy : t.tags.yResolution = some (yn, yd))
    (hxn : xn ≠ 0) (hyn : yn ≠ 0) :
    getPixelSize t = Except.ok
      ((if t.isImageJ then t.imagejSpacing else Option.none).map
        (· * (NAME_TO_MICRONS u).getD 1),
        (NAME_TO_MICRONS u).getD 1 * yd / yn,
        (NAME_TO_MICRONS u).getD 1 * xd / xn) := by
  rcases hu with ⟨hij, hu⟩ | ⟨hij, hu⟩ <;>
    simp [getPixelSize, getItem, hij, hu, hx, hy, hxn, hyn]

/-- Claim C6: for every scene whose first page carries XResolution and
YResolution fractions n/d meaning pixels per resolution unit,
`_get_pixel_size` returns per-axis size = unit_scalar * d / n for X and Y,
and a present ImageJ Z spacing is multiplied by the same unit scalar. -/
theorem getPixelSize_inverts_fractions (t : TiffModel) (u : UnitToken)
    (xn xd yn yd : ℚ)
    (hu : (t.isImageJ = true ∧ t.imagejUnit = some u) ∨
      (t.isImageJ = false ∧ t.tags.resolutionUnit = some u))
    (hx : t.tags.xResolution = some (xn, xd))
    (hy : t.tags.yResolution = some (yn, yd))
    (hxn : xn ≠ 0) (hyn : yn ≠ 0) :
    getPixelSize t = Except.ok
      ((if t.isImageJ then t.imagejSpacing else Option.none).map
        (· * (NAME_TO_MICRONS u).getD 1),
        (NAME_TO_MICRONS u).getD 1 * yd / yn,
        (NAME_TO_MICRONS u).getD 1 * xd / xn) :=
  getPixelSize_success_eq t u xn xd yn yd hu hx hy hxn hyn

/-- Concrete instantiation of claim C6: a non-ImageJ scene reporting 4
pixels per centimeter yields 1e4 / 4 = 2500 micrometers per pixel. -/
theorem getPixelSize_inverts_fractions_witness :
    (((⟨false, Option.none, Option.none,
          ⟨some (UnitToken.resunit 3), some (4, 1), some (4, 1)⟩⟩
        : TiffModel).isImageJ = false ∧
      (⟨false, Option.none, Option.none,
          ⟨some (UnitToken.resunit 3), some (4, 1), some (4, 1)⟩⟩
        : TiffModel).tags.resolutionUnit = some (UnitToken.resunit 3)) ∧
      ((4 : ℚ) ≠ 0)) ∧
    getPixelSize
        (⟨false, Option.none, Option.none,
          ⟨some (UnitToken.resunit 3), some (4, 1), some (4, 1)⟩⟩
          : TiffModel)
      = Except.ok
        ((if (false : Bool) then (Option.none : Option ℚ)
            else Option.none).map
          (· * (NAME_TO_MICRONS (UnitToken.resunit 3)).getD 1),
          (NAME_TO_MICRONS (UnitToken.resunit 3)).getD 1 * 1 / 4,
          (NAME_TO_MICRONS (UnitToken.resunit 3)).getD 1 * 1 / 4) ∧
    (NAME_TO_MICRONS (UnitToken.resunit 3)).getD 1 * 1 / 4 = 2500 :=
  ⟨⟨⟨rfl, rfl⟩, by norm_num⟩,
    getPixelSize_inverts_fractions
      (⟨false, Option.none, Option.none,
        ⟨some (UnitToken.resunit 3), some (4, 1), some (4, 1)⟩⟩ : TiffModel)
      (UnitToken.resunit 3) 4 1 4 1
      (Or.inr ⟨rfl, rfl⟩) rfl rfl (by norm_num) (by norm_num),
    by
      rw [show NAME_TO_MICRONS (UnitToken.resunit 3) = some 10000 from rfl]
      norm_num⟩

/-- Counterexample to claim C5 as stated: on a non-ImageJ file whose
ResolutionUnit tag is absent but whose XResolution and YResolution fractions
are present, `_get_pixel_size` raises KeyError on the tag subscript instead
of defaulting the unit scalar to 1 and returning sizes. -/
theorem getPixelSize_absent_resolutionUnit_raises :
    getPixelSize
        (⟨false, Option.none, Option.none,
          ⟨Option.none, some (4, 1), some (4, 1)⟩⟩ : TiffModel)
      = Except.error (ReaderError.keyError "ResolutionUnit") := by
  rfl

/-- Claim C5 amended: in `_get_pixel_size` on a non-ImageJ file, when the
ResolutionUnit tag is present but its token is not recognized by the unit
table, the unit scalar defaults to 1 (micrometers) and resolution still
returns sizes computed from the X and Y resolution fractions; an absent
ResolutionUnit tag instead raises on the tag subscript (the caller degrades
that failure to all-None sizes). -/
theorem getPixelSize_unrecognized_unit_default (t : TiffModel)
    (u : UnitToken) (xn xd yn yd : ℚ)
    (hij : t.isImageJ = false)
    (hu : t.tags.resolutionUnit = some u)
    (hlookup : NAME_TO_MICRONS u = Option.none)
    (hx : t.tags.xResolution = some (xn, xd))
    (hy : t.tags.yResolution = some (yn, yd))
    (hxn : xn ≠ 0) (hyn : yn ≠ 0) :
    getPixelSize t
      = Except.ok (Option.none, 1 * yd / yn, 1 * xd / xn) := by
  have h := getPixelSize_success_eq t u xn xd yn yd (Or.inr ⟨hij, hu⟩)
    hx hy hxn hyn
  rw [h, hij, hlookup]
  simp

/-- Concrete instantiation of amended claim C5 at the unrecognized unit
token "parsec" with 4-pixels-per-unit fractions. -/
theorem getPixelSize_unrecognized_unit_default_witness :
    (((⟨false, Option.none, Option.none,
          ⟨some (UnitToken.str "parsec"), some (4, 1), some (4, 1)⟩⟩
        : TiffModel).isImageJ = false ∧
      NAME_TO_MICRONS (UnitToken.str "parsec") = Option.none) ∧
      ((4 : ℚ) ≠ 0)) ∧
    getPixelSize
        (⟨false, Option.none, Option.none,
          ⟨some (UnitToken.str "parsec"), some (4, 1), some (4, 1)⟩⟩
          : TiffModel)
      = Except.ok (Option.none, 1 * 1 / 4, 1 * 1 / 4) :=
  ⟨⟨⟨rfl, rfl⟩, by norm_num⟩,
    getPixelSize_unrecognized_unit_default
      (⟨false, Option.none, Option.none,
        ⟨some (UnitToken.str "parsec"), some (4, 1), some (4, 1)⟩⟩
        : TiffModel)
      (UnitToken.str "parsec") 4 1 4 1 rfl rfl rfl rfl rfl
      (by norm_num) (by norm_num)⟩

/-- Claim C7: for every input on which pixel-size extraction raises any
exception, the `physical_pixel_sizes` property does not propagate the
exception: it emits a warning and returns (None, None, None); pixel-size
resolution failure never aborts image loading. -/
theorem physicalPixelSizes_absorbs_errors (t : TiffModel) (e : ReaderError)
    (h : getPixelSize t = Except.error e) :
    physicalPixelSizes t
      = ((Option.none, Option.none, Option.none), true) := by
  unfold physicalPixelSizes
  rw [h]

/-- Concrete instantiation of claim C7 at a non-ImageJ file with no
ResolutionUnit tag, on which `_get_pixel_size` raises KeyError. -/
theorem physicalPixelSizes_absorbs_errors_witness :
    getPixelSize
        (⟨false, Option.none, Option.none,
          ⟨Option.none, some (3, 1), some (3, 1)⟩⟩ : TiffModel)
      = Except.error (ReaderError.keyError "ResolutionUnit") ∧
    physicalPixelSizes
        (⟨false, Option.none, Option.none,
          ⟨Option.none, some (3, 1), some (3, 1)⟩⟩ : TiffModel)
      = ((Option.none, Option.none, Option.none), true) :=
  ⟨rfl, physicalPixelSizes_absorbs_errors _
    (ReaderError.keyError "ResolutionUnit") rfl⟩

end BioioTifffile
